import Mathlib

/-!
Shallow embedding of the jsonpath package (src/jsonpath.go) in Lean 4.

The Go code traverses the generic `interface` tree produced by `encoding/json`:
nil, bool, float64, string, []interface\x7b\x7d, map[string]interface\x7b\x7d.
We model this tree by the inductive type `Value`.  JSON numbers are kept as
exact rationals; this models the observable behaviour of `float64` for the
short decimal literals that occur in the repository (decoding a short decimal
and re-rendering it with `%v` round-trips in Go, and `go/types.Eval` compares
untyped constants exactly).

Go functions returning `(T, error)` become `Res T := Except Fail T`, where
`Fail` separates ordinary `error` returns from run-time panics (out-of-range
slice indexing, failed type assertions, indexing an empty slice), which the
Go code does not catch anywhere.

External dependencies of the file (not part of this repository) are modelled
from their documented behaviour where the code relies on them:
`github.com/mohae/utilitybelt/deepcopy` (a deep clone; on immutable values
the identity), `fmt.Sprintf` with the `%s`/`%v` verbs, `strconv.Atoi`,
`strings.Split`/`Trim`/`Index`/`Contains`/`HasPrefix`/`HasSuffix`, and
`go/types.Eval` restricted to the comparison expressions the code builds.
String positions are modelled at rune granularity; every string reaching the
byte-indexing operations in the claims is ASCII, where the two coincide.
-/

/-- The generic JSON value tree (the Go `interface` tree after `encoding/json` decoding). -/
inductive Value where
  | null
  | bool (b : Bool)
  | num (q : ℚ)
  | str (s : String)
  | arr (elems : List Value)
  | obj (fields : List (String × Value))
deriving Repr

/-- The error values produced by src/jsonpath.go, one constructor per
distinct `errors.New` / `fmt.Errorf` site (payloads carry the formatted-in
data).  `getFromNullObj` is the package-level `ErrGetFromNullObj`. -/
inductive Err where
  | getFromNullObj
  | keyNotFound (key : String)
  | notMap
  | notSlice
  | idxOutOfRange (len : Nat) (idx : Int)
  | rangeFromOut (len : Nat) (frm : Option Int)
  | rangeToOut (len : Nat) (tto : Option Int)
  | exprUnsupported
  | cannotIndexEmpty
  | rangeArgsLen
  | multiIndexInFilter
  | rootMarkerMissing
  | shouldStartWithDollar
  | lenTailShort (tail : String)
  | onlyOneRange
  | atoiFailed (s : String)
  | filterOnType
  | invalidCharAt (idx : Nat)
  | notImplemented
  | cmpBadOp
  | typesEvalFailed
deriving DecidableEq, Repr

/-- A Go failure: either an `error` value returned through the error result,
or a run-time panic (which the package never recovers from). -/
inductive Fail where
  | err (e : Err)
  | panic (msg : String)
deriving DecidableEq, Repr

abbrev Res (α : Type) := Except Fail α

/-! ### Character-level models of the Go standard-library string helpers -/

/-- Model of `strings.Contains(s, string(c))` for a one-character needle. -/
def goContains (cs : List Char) (c : Char) : Bool :=
  cs.any (fun x => x = c)

/-- Model of `strings.HasPrefix`: pattern chars lead the string chars. -/
def goStartsAux : List Char → List Char → Bool
  | [], _ => true
  | _ :: _, [] => false
  | p :: ps, c :: cs => p = c && goStartsAux ps cs

/-- Model of `strings.HasPrefix(s, pat)`. -/
def goStartsWith (s pat : String) : Bool :=
  goStartsAux pat.data s.data

/-- Model of `strings.HasSuffix(s, pat)`. -/
def goEndsWith (s pat : String) : Bool :=
  goStartsAux pat.data.reverse s.data.reverse

/-- Model of `strings.Trim(s, " ")`: strip leading and trailing spaces. -/
def goTrimSpace (s : String) : String :=
  String.mk (((s.data.dropWhile (fun c => c = ' ')).reverse.dropWhile
      (fun c => c = ' ')).reverse)

/-- Model of `strings.Split(s, string(sep))` for a one-character separator:
the list of (possibly empty) runs between occurrences of `sep`. -/
def goSplitAux (sep : Char) : List Char → List (List Char)
  | [] => [[]]
  | c :: rest =>
      let r := goSplitAux sep rest
      if c = sep then [] :: r
      else (c :: r.headD []) :: r.tail

/-- Model of `strings.Split` (single-character separator). -/
def goSplit (s : String) (sep : Char) : List String :=
  (goSplitAux sep s.data).map String.mk

/-- Index of the first occurrence of `c`, model of `strings.Index`
(rune = byte for the ASCII inputs of interest). -/
def goIndexOf : List Char → Char → Option Nat
  | [], _ => Option.none
  | x :: rest, c =>
      if x = c then Option.some 0
      else (goIndexOf rest c).map (· + 1)

/-- Digit run to a number: `Option.some` iff nonempty and all decimal digits. -/
def goDigits : List Char → Option Nat
  | [] => Option.none
  | [c] => if '0' ≤ c ∧ c ≤ '9' then Option.some (c.toNat - '0'.toNat) else Option.none
  | c :: rest =>
      if '0' ≤ c ∧ c ≤ '9' then
        (goDigits rest).map (fun n => (c.toNat - '0'.toNat) * 10 ^ rest.length + n)
      else Option.none

/-- Model of `strconv.Atoi`: optional sign followed by at least one digit.
(The `int` overflow bound of the real `Atoi` is not modelled; no claim input
approaches it.) -/
def goAtoi (s : String) : Option Int :=
  match s.data with
  | [] => Option.none
  | '+' :: rest => (goDigits rest).map (fun n => (n : Int))
  | '-' :: rest => (goDigits rest).map (fun n => -(n : Int))
  | l => (goDigits l).map (fun n => (n : Int))

/-- Byte-lexicographic strict order on strings, the order Go uses for
`string < string` (UTF-8 byte order agrees with code-point order). -/
def goStrLtAux : List Char → List Char → Bool
  | [], [] => false
  | [], _ :: _ => true
  | _ :: _, [] => false
  | a :: as', b :: bs => if a < b then true else if b < a then false else goStrLtAux as' bs

/-- Go string `<`. -/
def goStrLt (a b : String) : Bool :=
  goStrLtAux a.data b.data

/-! ### Value-model primitives (src/jsonpath.go lines 280 to 362) -/

/-- `get_idx` (src/jsonpath.go:308): index an Array, negative indices count
from the end; anything else is "object is not Slice". -/
def get_idx (obj : Value) (idx : Int) : Res Value :=
  match obj with
  | Value.arr vs =>
      let length : Int := vs.length
      if 0 ≤ idx then
        if idx ≥ length then Except.error (Fail.err (Err.idxOutOfRange vs.length idx))
        else Except.ok (vs.getD idx.toNat Value.null)
      else
        let _idx := length + idx
        if _idx < 0 then Except.error (Fail.err (Err.idxOutOfRange vs.length idx))
        else Except.ok (vs.getD _idx.toNat Value.null)
  | _ => Except.error (Fail.err Err.notSlice)

mutual

/-- `get_key` (src/jsonpath.go:280): nil receiver fails with
`ErrGetFromNullObj`; a Map is searched for the key; a Slice broadcasts the
lookup over its elements keeping only the successes; anything else is
"object is not map". -/
def get_key : Value → String → Res Value
  | Value.null, _ => Except.error (Fail.err Err.getFromNullObj)
  | Value.obj kvs, key =>
      match kvs.find? (fun kv => kv.1 = key) with
      | Option.some kv => Except.ok kv.2
      | Option.none => Except.error (Fail.err (Err.keyNotFound key))
  | Value.arr vs, key => Except.ok (Value.arr (get_key_list key vs))
  | _, _ => Except.error (Fail.err Err.notMap)

/-- The broadcast loop of `get_key` over a slice: element failures are
dropped (`if v, err := get_key(tmp, key); err == nil`). -/
def get_key_list (key : String) : List Value → List Value
  | [] => []
  | v :: rest =>
      match get_key v key with
      | Except.ok r => r :: get_key_list key rest
      | Except.error _ => get_key_list key rest

end

/-- Go `v[i:j]` on a list (elements `i` to `j-1`). -/
def goSlice (vs : List Value) (i j : Nat) : List Value :=
  (vs.take j).drop i

/-- `get_range` (src/jsonpath.go:330): resolve the optional bounds (`frm`
absent means 0, negative means `len+frm`; `to` absent means `len`, negative
means `len+to+1`, otherwise `to+1`), bound-check them, then take the Go
slice `v[_frm:_to]` — which panics when `_frm > _to`, exactly like
`reflect.Value.Slice`. -/
def get_range (obj : Value) (frm tto : Option Int) : Res Value :=
  match obj with
  | Value.arr vs =>
      let length : Int := vs.length
      let _frm : Int :=
        match frm with
        | Option.some fv => if fv < 0 then length + fv else fv
        | Option.none => 0
      let _to : Int :=
        match tto with
        | Option.some tv => if tv < 0 then length + tv + 1 else tv + 1
        | Option.none => length
      if _frm < 0 ∨ _frm ≥ length then
        Except.error (Fail.err (Err.rangeFromOut vs.length frm))
      else if _to < 0 ∨ _to > length then
        Except.error (Fail.err (Err.rangeToOut vs.length tto))
      else if _frm ≤ _to then
        Except.ok (Value.arr (goSlice vs _frm.toNat _to.toNat))
      else
        Except.error (Fail.panic "reflect.Value.Slice: slice index out of range")
  | _ => Except.error (Fail.err Err.notSlice)

/-! ### Tokenizer (src/jsonpath.go lines 94 to 167) -/

/-- Go `token[1:]` (byte slicing; ASCII in all claim inputs). -/
def strDropFirst (s : String) : String := String.mk s.data.tail

/-- Go `token[:len(token)-1]`. -/
def strDropLast (s : String) : String := String.mk s.data.dropLast

/-- Go `token[1:len(token)-1]`. -/
def strInner (s : String) : String := String.mk s.data.tail.dropLast

/-- The per-character loop of `tokenize` for indices 1 and upwards (the
index-0 case is handled by `tokenize` itself).  State: the emitted tokens
and the accumulating `token`; the loop body mirrors src/jsonpath.go:101-147
branch for branch. -/
def tok_loop : List Char → List String → String → (List String × String)
  | [], tokens, token => (tokens, token)
  | x :: rest, tokens, token =>
      let token := token.push x
      if token = "." then tok_loop rest tokens token
      else if token = ".." then
        let tokens := if tokens.getLastD "" ≠ "*" then tokens ++ ["*"] else tokens
        tok_loop rest tokens "."
      else if goContains token.data '[' then
        if x = ']' ∧ goEndsWith token "\\]" = false then
          let tokens :=
            tokens ++ [if token.data.headD ' ' = '.' then strDropFirst token else token]
          tok_loop rest tokens ""
        else tok_loop rest tokens token
      else if x = '.' then
        let tokens :=
          tokens ++ [if token.data.headD ' ' = '.' then strInner token else strDropLast token]
        tok_loop rest tokens "."
      else tok_loop rest tokens token

/-- The after-loop flush of `tokenize` (src/jsonpath.go:148-163): a pending
token is emitted, stripping one leading `.` and collapsing a trailing `*`
into a preceding `*` token. -/
def tok_finish (tokens : List String) (token : String) : List String :=
  if token.length > 0 then
    let token := if token.data.headD ' ' = '.' then strDropFirst token else token
    if token ≠ "*" then tokens ++ [token]
    else if tokens.getLastD "" ≠ "*" then tokens ++ [token]
    else tokens
  else tokens

/-- `tokenize` (src/jsonpath.go:94): the empty query never enters the loop
and yields an empty token list with no error; otherwise the first character
must be `$` or `@` (emitted verbatim as the first token) or the whole call
fails with "should start with '$'". -/
def tokenize (query : String) : Res (List String) :=
  match query.data with
  | [] => Except.ok []
  | c :: rest =>
      let first := String.mk [c]
      if first = "$" ∨ first = "@" then
        let st := tok_loop rest [first] ""
        Except.ok (tok_finish st.1 st.2)
      else Except.error (Fail.err Err.shouldStartWithDollar)

/-! ### Segment parser (src/jsonpath.go lines 172 to 237) -/

/-- The `args interface` payload of `parse_token`: Go `nil`, `[]int`,
`[2]interface` of optional ints, or the filter predicate string. -/
inductive Args where
  | none
  | ints (l : List Int)
  | range (frm tto : Option Int)
  | filter (s : String)
deriving DecidableEq, Repr

/-- The four named results of Go `parse_token(token) (op, key string,
args interface, err error)`.  Go returns all four even on error (named
returns), so `err` is a field rather than an `Except` wrapper; callers in
this package never check it. -/
structure PTok where
  op : String
  key : String
  args : Args
  err : Option Err
deriving DecidableEq, Repr

/-- The range branch of `parse_token` (src/jsonpath.go:200-217).  Both
bounds are parsed with `strconv.Atoi`; a failed parse leaves the bound nil.
The named return `err` is assigned by BOTH `Atoi` calls in sequence, so the
value that survives is the second one: `err` is non-nil exactly when the
`to` text does not parse, and a `from` failure is overwritten. -/
def parse_range_branch (key tail : String) : PTok :=
  let tails := goSplit tail ':'
  if tails.length ≠ 2 then PTok.mk "range" key Args.none (Option.some Err.onlyOneRange)
  else
    let frm := goAtoi (goTrimSpace (tails.getD 0 ""))
    let tto := goAtoi (goTrimSpace (tails.getD 1 ""))
    PTok.mk "range" key (Args.range frm tto)
      (match tto with
       | Option.some _ => Option.none
       | Option.none => Option.some (Err.atoiFailed (goTrimSpace (tails.getD 1 ""))))

/-- The index branch loop of `parse_token` (src/jsonpath.go:225-233): every
comma-separated piece must parse as an integer, the first failure aborts. -/
def parse_idx_loop : List String → Except Err (List Int)
  | [] => Except.ok []
  | x :: rest =>
      match goAtoi (goTrimSpace x) with
      | Option.some i =>
          match parse_idx_loop rest with
          | Except.ok l => Except.ok (i :: l)
          | Except.error e => Except.error e
      | Option.none => Except.error (Err.atoiFailed (goTrimSpace x))

/-- `parse_token` (src/jsonpath.go:172): classify one token into
root / scan / key / filter / range / idx, splitting `key[tail]` at the
first `[`.  The filter branch only fills `args` when the bracket body has
the exact shape `?( ... )`; otherwise `args` stays nil (and no error is
reported). -/
def parse_token (token : String) : PTok :=
  if token = "$" then PTok.mk "root" "$" Args.none Option.none
  else if token = "*" then PTok.mk "scan" "*" Args.none Option.none
  else
    match goIndexOf token.data '[' with
    | Option.none => PTok.mk "key" token Args.none Option.none
    | Option.some bi =>
        let key := String.mk (token.data.take bi)
        let tail := String.mk (token.data.drop bi)
        if tail.length < 3 then PTok.mk "" key Args.none (Option.some (Err.lenTailShort tail))
        else
          let tail := strInner tail
          if goContains tail.data '?' then
            PTok.mk "filter" key
              (if goStartsWith tail "?(" ∧ goEndsWith tail ")" then
                Args.filter (goTrimSpace (String.mk (tail.data.drop 2).dropLast))
              else Args.none)
              Option.none
          else if goContains tail.data ':' then parse_range_branch key tail
          else if tail = "*" then
            PTok.mk "range" key (Args.range Option.none Option.none) Option.none
          else
            match parse_idx_loop (goSplit tail ',') with
            | Except.ok res => PTok.mk "idx" key (Args.ints res) Option.none
            | Except.error e => PTok.mk "" "" Args.none (Option.some e)

/-! ### Filter mini-language (src/jsonpath.go lines 239 to 277, 408 to 527) -/

/-- The step loop of `filter_get_from_explicit_path` (src/jsonpath.go:252):
only `key` and single-`idx` segments are supported inside filter operand
paths; everything else is "expression don't support in filter".  The
`err` result of `parse_token` is never consulted (src/jsonpath.go:253). -/
def filter_get_steps : Value → List String → Res Value
  | xobj, [] => Except.ok xobj
  | xobj, s :: rest =>
      let p := parse_token s
      if p.op = "key" then
        match get_key xobj p.key with
        | Except.error e => Except.error e
        | Except.ok x => filter_get_steps x rest
      else if p.op = "idx" then
        match p.args with
        | Args.ints l =>
            if l.length ≠ 1 then Except.error (Fail.err Err.multiIndexInFilter)
            else
              match get_key xobj p.key with
              | Except.error e => Except.error e
              | Except.ok x =>
                  match get_idx x (l.headD 0) with
                  | Except.error e => Except.error e
                  | Except.ok x2 => filter_get_steps x2 rest
        | _ => Except.error (Fail.panic "interface conversion: args is not a slice of int")
      else Except.error (Fail.err Err.exprUnsupported)

/-- `filter_get_from_explicit_path` (src/jsonpath.go:239): tokenize the
operand path, require the `$`/`@` root marker, then walk key/idx steps. -/
def filter_get_from_explicit_path (obj : Value) (path : String) : Res Value :=
  match tokenize path with
  | Except.error e => Except.error e
  | Except.ok [] => Except.error (Fail.panic "runtime error: index out of range")
  | Except.ok (s0 :: rest) =>
      if s0 = "@" ∨ s0 = "$" then filter_get_steps obj rest
      else Except.error (Fail.err Err.rootMarkerMissing)

/-- The character loop of `parse_filter` (src/jsonpath.go:408): three
space-separated fields, single quotes (code point 39) making spaces literal
(note the source never resets `str_embrace` after a closing quote); a third
field-advance is "invalid char"; leftover text in stage 0 makes the
operator `exists`. -/
def parse_filter_loop :
    List Char → Nat → String → String → String → String → Nat → Bool →
      Res (String × String × String)
  | [], _, lp, op, rp, tmp, stage, _ =>
      if tmp ≠ "" then
        match stage with
        | 0 => Except.ok (tmp, "exists", rp)
        | 1 => Except.ok (lp, tmp, rp)
        | 2 => Except.ok (lp, op, tmp)
        | _ => Except.ok (lp, op, rp)
      else Except.ok (lp, op, rp)
  | c :: rest, idx, lp, op, rp, tmp, stage, emb =>
      if c = Char.ofNat 39 then
        if emb = false then parse_filter_loop rest (idx + 1) lp op rp tmp stage true
        else
          match stage with
          | 0 => parse_filter_loop rest (idx + 1) tmp op rp "" stage emb
          | 1 => parse_filter_loop rest (idx + 1) lp tmp rp "" stage emb
          | 2 => parse_filter_loop rest (idx + 1) lp op tmp "" stage emb
          | _ => parse_filter_loop rest (idx + 1) lp op rp "" stage emb
      else if c = ' ' then
        if emb = true then parse_filter_loop rest (idx + 1) lp op rp (tmp.push c) stage emb
        else
          let lp' := if stage = 0 then tmp else lp
          let op' := if stage = 1 then tmp else op
          let rp' := if stage = 2 then tmp else rp
          if stage + 1 > 2 then Except.error (Fail.err (Err.invalidCharAt idx))
          else parse_filter_loop rest (idx + 1) lp' op' rp' "" (stage + 1) emb
      else parse_filter_loop rest (idx + 1) lp op rp (tmp.push c) stage emb

/-- `parse_filter` (src/jsonpath.go:408): split a predicate into
(left operand, operator, right operand). -/
def parse_filter (filter : String) : Res (String × String × String) :=
  parse_filter_loop filter.data 0 "" "" "" "" 0 false

/-! ### Comparison (src/jsonpath.go lines 529 to 573)

`cmp_any` renders both operands twice with `fmt.Sprintf`: with `%s` for the
`isNumber` test and with `%v` into the expression handed to `go/types.Eval`.
The two verbs agree on strings but differ on everything else: `%s` of a
non-string prints a `%!s(...)` diagnostic (never a bare number), while `%v`
of a float64 prints its shortest decimal form.  `go/types.Eval` is modelled
narrowly (spec sections 4.6 and 9): on `a OP b` with numeric-literal texts
it compares the exact constant values; on `"a" OP "b"` it compares the two
texts in byte-lexicographic order; text that cannot be spliced into a valid
Go expression (quotes, backslashes, raw line breaks, or a malformed numeric
constant such as the empty string) makes `types.Eval` return an error. -/

/-- Decimal-digit test used by the numeric-literal model. -/
def isDigitCh (c : Char) : Bool := '0' ≤ c ∧ c ≤ '9'

/-- Value of a digit run (0 when empty). -/
def goDigitsVal (cs : List Char) : Nat :=
  cs.foldl (fun acc c => acc * 10 + (c.toNat - '0'.toNat)) 0

/-- Smallest power of ten clearing the denominator, if any (searched up to
10^40, far beyond any decimal literal in the repository). -/
def findScale (n d : Nat) : Option Nat :=
  (List.range 40).find? (fun k => (n * 10 ^ k) % d == 0)

/-- Left-pad with zeros to `k` digits. -/
def padZeros (s : String) (k : Nat) : String :=
  String.mk (List.replicate (k - s.length) '0') ++ s

/-- Rendering of a number as Go `%v` renders a float64: shortest decimal
form ("10", "8.95", "-0.5").  Exact for every terminating decimal; the
slash fallback is unreachable for values decoded from JSON decimals (a
float64 is a dyadic rational). -/
def goRenderNum (q : ℚ) : String :=
  let n := q.num.natAbs
  let d := q.den
  let body :=
    if d = 1 then toString n
    else
      match findScale n d with
      | Option.some k =>
          let scaled := n * 10 ^ k / d
          toString (scaled / 10 ^ k) ++ "." ++ padZeros (toString (scaled % 10 ^ k)) k
      | Option.none => toString n ++ "/" ++ toString d
  if q.num < 0 then "-" ++ body else body

/-- Insertion step for field sorting (Go `fmt` prints maps in ascending key
order); fields are rendered before sorting, the order is by key. -/
def insertField (kv : String × String) : List (String × String) → List (String × String)
  | [] => [kv]
  | x :: rest => if goStrLt kv.1 x.1 then kv :: x :: rest else x :: insertField kv rest

/-- Sort rendered object fields by key, as Go `fmt` does for maps. -/
def sortFields : List (String × String) → List (String × String)
  | [] => []
  | kv :: rest => insertField kv (sortFields rest)

/-- Glue the sorted `key:value` entries back together. -/
def glueFields (l : List (String × String)) : List String :=
  l.map (fun kv => kv.1 ++ ":" ++ kv.2)

/-- Join with single spaces, as Go `fmt` joins slice and map elements. -/
def goJoinSpace : List String → String
  | [] => ""
  | [s] => s
  | s :: rest => s ++ " " ++ goJoinSpace rest

mutual

/-- Model of `fmt.Sprintf("%v", x)` on decoded JSON values. -/
def goFormatV : Value → String
  | Value.null => "<nil>"
  | Value.bool b => if b then "true" else "false"
  | Value.num q => goRenderNum q
  | Value.str s => s
  | Value.arr vs => "[" ++ goJoinSpace (goFormatV_list vs) ++ "]"
  | Value.obj kvs =>
      "map[" ++ goJoinSpace (glueFields (sortFields (goFormatV_fields kvs))) ++ "]"

/-- `%v` of the elements of a slice. -/
def goFormatV_list : List Value → List String
  | [] => []
  | v :: rest => goFormatV v :: goFormatV_list rest

/-- `%v` of the entries of a map, keeping the key for sorting. -/
def goFormatV_fields : List (String × Value) → List (String × String)
  | [] => []
  | kv :: rest => (kv.1, goFormatV kv.2) :: goFormatV_fields rest

end

mutual

/-- Model of `fmt.Sprintf("%s", x)` on decoded JSON values: strings print
verbatim, any non-string atom prints a `%!s(type=value)` diagnostic. -/
def goFormatS : Value → String
  | Value.null => "%!s(<nil>)"
  | Value.bool b => "%!s(bool=" ++ (if b then "true" else "false") ++ ")"
  | Value.num q => "%!s(float64=" ++ goRenderNum q ++ ")"
  | Value.str s => s
  | Value.arr vs => "[" ++ goJoinSpace (goFormatS_list vs) ++ "]"
  | Value.obj kvs =>
      "map[" ++ goJoinSpace (glueFields (sortFields (goFormatS_fields kvs))) ++ "]"

/-- `%s` of the elements of a slice. -/
def goFormatS_list : List Value → List String
  | [] => []
  | v :: rest => goFormatS v :: goFormatS_list rest

/-- `%s` of the entries of a map, keeping the key for sorting. -/
def goFormatS_fields : List (String × Value) → List (String × String)
  | [] => []
  | kv :: rest => (kv.1, goFormatS kv.2) :: goFormatS_fields rest

end

/-- The loop of `isNumber` (src/jsonpath.go:529), counting dots. -/
def isNumber_loop : List Char → Nat → Bool
  | [], _ => true
  | c :: rest, dot_cnt =>
      if c = '.' then
        if dot_cnt + 1 > 1 then false else isNumber_loop rest (dot_cnt + 1)
      else if isDigitCh c then isNumber_loop rest dot_cnt
      else false

/-- `isNumber` (src/jsonpath.go:529): only digits with at most one dot
(vacuously true on the empty string). -/
def isNumber (s : String) : Bool :=
  isNumber_loop s.data 0

/-- Model of `go/types.Eval` parsing a numeric constant of digits-and-dot
shape: at least one digit is required ("" and "." are syntax errors, "8."
and ".5" are legal Go constants). -/
def goConstNum (s : String) : Option ℚ :=
  match goSplitAux '.' s.data with
  | [a] =>
      if a ≠ [] ∧ a.all isDigitCh then Option.some ((goDigitsVal a : ℚ)) else Option.none
  | [a, b] =>
      if (a ≠ [] ∨ b ≠ []) ∧ a.all isDigitCh ∧ b.all isDigitCh then
        Option.some ((goDigitsVal a : ℚ) + (goDigitsVal b : ℚ) / 10 ^ b.length)
      else Option.none
  | _ => Option.none

/-- The double-quote, backslash, line-feed and carriage-return characters,
by code point. -/
def evalBreakChars : List Char :=
  [Char.ofNat 34, Char.ofNat 92, Char.ofNat 10, Char.ofNat 13]

/-- Text that cannot be spliced between double quotes in a Go expression. -/
def goQuoteBreaks (s : String) : Bool :=
  s.data.any (fun c => evalBreakChars.contains c)

/-- Go comparison of two exact numeric constants. -/
def cmpNumGo (a b : ℚ) (op : String) : Bool :=
  if op = "<" then decide (a < b)
  else if op = "<=" then decide (a ≤ b)
  else if op = "==" then decide (a = b)
  else if op = ">=" then decide (b ≤ a)
  else if op = ">" then decide (b < a)
  else false

/-- Go comparison of two string constants (byte-lexicographic). -/
def cmpStrGo (a b : String) (op : String) : Bool :=
  if op = "<" then goStrLt a b
  else if op = "<=" then !(goStrLt b a)
  else if op = "==" then a == b
  else if op = ">=" then !(goStrLt a b)
  else if op = ">" then goStrLt b a
  else false

/-- `cmp_any` (src/jsonpath.go:546): reject operators outside the five
relationals; if the `%s` renderings of BOTH operands pass `isNumber`, build
`%v OP %v` and compare as numeric constants, otherwise build
`"%v" OP "%v"` and compare as strings. -/
def cmp_any (obj1 obj2 : Value) (op : String) : Res Bool :=
  if op = "<" ∨ op = "<=" ∨ op = "==" ∨ op = ">=" ∨ op = ">" then
    if isNumber (goFormatS obj1) && isNumber (goFormatS obj2) then
      match goConstNum (goFormatV obj1), goConstNum (goFormatV obj2) with
      | Option.some a, Option.some b => Except.ok (cmpNumGo a b op)
      | _, _ => Except.error (Fail.err Err.typesEvalFailed)
    else
      if goQuoteBreaks (goFormatV obj1) ∨ goQuoteBreaks (goFormatV obj2) then
        Except.error (Fail.err Err.typesEvalFailed)
      else Except.ok (cmpStrGo (goFormatV obj1) (goFormatV obj2) op)
  else Except.error (Fail.err Err.cmpBadOp)

/-! ### Filter evaluation and the path evaluator (src/jsonpath.go 17-91,
364-401, 498-527) -/

/-- Operand resolution in `eval_filter` (src/jsonpath.go:502-509, 517-523):
`@.`-paths resolve from the candidate element, `$.`-paths from the root,
anything else is a literal string. -/
def resolve_operand (obj root : Value) (s : String) : Res Value :=
  if goStartsWith s "@." then filter_get_from_explicit_path obj s
  else if goStartsWith s "$." then filter_get_from_explicit_path root s
  else Except.ok (Value.str s)

/-- `eval_filter` (src/jsonpath.go:498).  A failed operand resolution
leaves the Go operand variable at nil (the error is dropped:
for `exists` explicitly, for comparisons because `return cmp_any(...)`
discards it), so failures compare as `<nil>`; a panic would propagate. -/
def eval_filter (obj root : Value) (lp op rp : String) : Res Bool :=
  match resolve_operand obj root lp with
  | Except.error (Fail.panic p) => Except.error (Fail.panic p)
  | r1 =>
      let lp_v : Value := match r1 with | Except.ok v => v | _ => Value.null
      if op = "exists" then
        Except.ok (match lp_v with | Value.null => false | _ => true)
      else if op = "=~" then Except.error (Fail.err Err.notImplemented)
      else
        match resolve_operand obj root rp with
        | Except.error (Fail.panic p) => Except.error (Fail.panic p)
        | r2 =>
            let rp_v : Value := match r2 with | Except.ok v => v | _ => Value.null
            cmp_any lp_v rp_v op

/-- The per-element loop of `get_filtered` (src/jsonpath.go:374-395): the
FIRST `eval_filter` error aborts the whole call (`return nil, err`); only
elements whose predicate evaluates to true are kept. -/
def filter_collect (root : Value) (lp op rp : String) : List Value → Res (List Value)
  | [] => Except.ok []
  | v :: rest =>
      match eval_filter v root lp op rp with
      | Except.error e => Except.error e
      | Except.ok keep =>
          match filter_collect root lp op rp rest with
          | Except.error e => Except.error e
          | Except.ok l => Except.ok (if keep then v :: l else l)

/-- `get_filtered` (src/jsonpath.go:364): parse the predicate once, then
collect matching elements of a Slice (in order) or the values of a Map
(iteration order is unspecified in Go; the model iterates in field order,
an open item of spec section 9).  Keys are discarded. -/
def get_filtered (obj root : Value) (filter : String) : Res Value :=
  match parse_filter filter with
  | Except.error e => Except.error e
  | Except.ok (lp, op, rp) =>
      match obj with
      | Value.arr vs =>
          match filter_collect root lp op rp vs with
          | Except.error e => Except.error e
          | Except.ok l => Except.ok (Value.arr l)
      | Value.obj kvs =>
          match filter_collect root lp op rp (kvs.map Prod.snd) with
          | Except.error e => Except.error e
          | Except.ok l => Except.ok (Value.arr l)
      | _ => Except.error (Fail.err Err.filterOnType)

/-- The multi-index collection of the `idx` case (src/jsonpath.go:48-57):
strict, the first out-of-range aborts. -/
def idx_collect (xobj : Value) : List Int → Res (List Value)
  | [] => Except.ok []
  | i :: rest =>
      match get_idx xobj i with
      | Except.error e => Except.error e
      | Except.ok v =>
          match idx_collect xobj rest with
          | Except.error e => Except.error e
          | Except.ok l => Except.ok (v :: l)

/-- The step loop of `JsonPathLookup` (src/jsonpath.go:30-90).  `root` is
the value the Go code passes as the second argument of `get_filtered` at
src/jsonpath.go:86 — the caller's ORIGINAL `obj`, not the traversal clone.
Notable faithfulness points: the `err` result of `parse_token` is never
checked; op `scan` has no case and falls into the default error; a filter
with nil `args` panics on the `args.(string)` assertion AFTER the key
lookup; and an ERROR from `get_filtered` is not checked either — the Go
code overwrites `xobj` with the returned typed-nil `[]interface`
(observationally an empty Array) and keeps walking. -/
def lookup_steps (root : Value) : Value → List String → Res Value
  | xobj, [] => Except.ok xobj
  | xobj, s :: rest =>
      let p := parse_token s
      if p.op = "key" then
        match get_key xobj p.key with
        | Except.error e => Except.error e
        | Except.ok x => lookup_steps root x rest
      else if p.op = "idx" then
        match get_key xobj p.key with
        | Except.error e => Except.error e
        | Except.ok x =>
            match p.args with
            | Args.ints l =>
                if l.length > 1 then
                  match idx_collect x l with
                  | Except.error e => Except.error e
                  | Except.ok vs => lookup_steps root (Value.arr vs) rest
                else if l.length = 1 then
                  match get_idx x (l.headD 0) with
                  | Except.error e => Except.error e
                  | Except.ok x2 => lookup_steps root x2 rest
                else Except.error (Fail.err Err.cannotIndexEmpty)
            | _ => Except.error (Fail.panic "interface conversion: args is not a slice of int")
      else if p.op = "range" then
        match get_key xobj p.key with
        | Except.error e => Except.error e
        | Except.ok x =>
            match p.args with
            | Args.range f t =>
                match get_range x f t with
                | Except.error e => Except.error e
                | Except.ok x2 => lookup_steps root x2 rest
            | _ => Except.error (Fail.err Err.rangeArgsLen)
      else if p.op = "filter" then
        match get_key xobj p.key with
        | Except.error e => Except.error e
        | Except.ok x =>
            match p.args with
            | Args.filter fs =>
                match get_filtered x root fs with
                | Except.ok x2 => lookup_steps root x2 rest
                | Except.error (Fail.panic pm) => Except.error (Fail.panic pm)
                | Except.error (Fail.err _) => lookup_steps root (Value.arr []) rest
            | _ => Except.error (Fail.panic "interface conversion: interface is nil, not string")
      else Except.error (Fail.err Err.exprUnsupported)

/-- Modelled from the spec: the external deep-clone utility
`deepcopy.Iface` from github.com/mohae/utilitybelt (out of scope per spec
section 1, "an external utility the core relies on", required capability: an
independent deep copy of the document).  Over immutable values a deep copy
is the value itself. -/
def deepcopy (v : Value) : Value := v

/-- `JsonPathLookup` (src/jsonpath.go:17): tokenize, demand a `$`/`@` root
marker (reading `steps[0]` panics when the token list is empty), deep-copy
the document into the traversal accumulator `xobj`, and fold the steps.
The filter root passed along is the caller's original `obj`
(src/jsonpath.go:86), not the clone. -/
def JsonPathLookup (obj : Value) (jpath : String) : Res Value :=
  match tokenize jpath with
  | Except.error e => Except.error e
  | Except.ok [] => Except.error (Fail.panic "runtime error: index out of range")
  | Except.ok (s0 :: rest) =>
      if s0 = "@" ∨ s0 = "$" then lookup_steps obj (deepcopy obj) rest
      else Except.error (Fail.err Err.rootMarkerMissing)

/-- Modelled from the spec (section 5): the variant of `JsonPathLookup`
demanded by the sentence "the root reference retained for `$.`-rooted
filters must be the same clone used for traversal, not the caller's
original" — identical to `JsonPathLookup` except that the value threaded to
`get_filtered` as filter root is the deep clone rather than the original. -/
def JsonPathLookupCloneRoot (obj : Value) (jpath : String) : Res Value :=
  match tokenize jpath with
  | Except.error e => Except.error e
  | Except.ok [] => Except.error (Fail.panic "runtime error: index out of range")
  | Except.ok (s0 :: rest) =>
      if s0 = "@" ∨ s0 = "$" then lookup_steps (deepcopy obj) (deepcopy obj) rest
      else Except.error (Fail.err Err.rootMarkerMissing)

/-! ### Helper lemmas -/

/-- The slice broadcast of `get_key` keeps exactly the successful element
lookups, in order. -/
theorem get_key_list_eq_filterMap (key : String) (vs : List Value) :
    get_key_list key vs = vs.filterMap (fun v => (get_key v key).toOption) := by
  induction vs with
  | nil => simp [get_key_list]
  | cons v rest ih =>
      cases h : get_key v key with
      | ok r => simp [get_key_list, h, List.filterMap, Except.toOption, ih]
      | error e => simp [get_key_list, h, List.filterMap, Except.toOption, ih]

/-- The tokenizer loop never removes an already-emitted token. -/
theorem tok_loop_fst_ne_nil :
    ∀ (cs : List Char) (tokens : List String) (token : String),
      tokens ≠ [] → (tok_loop cs tokens token).1 ≠ [] := by
  intro cs
  induction cs with
  | nil => intro tokens token h; simpa [tok_loop] using h
  | cons x rest ih =>
      intro tokens token h
      simp only [tok_loop]
      split_ifs <;> first | exact ih _ _ h | exact ih _ _ (by simp)

/-- The tokenizer flush never removes an already-emitted token. -/
theorem tok_finish_ne_nil (tokens : List String) (token : String)
    (h : tokens ≠ []) : tok_finish tokens token ≠ [] := by
  unfold tok_finish
  split_ifs <;> simp_all <;> split_ifs <;> simp_all

/-! ### Claim C1 -/

/-- Claim C1 counterexample: a standalone Scan segment (`*` token) is NOT a
pass-through; the evaluator's switch has no `scan` case, so it returns the
error "expression don't support in filter" instead of the unchanged value,
and `$..a` fails on a document where `a` is present at depth 1. -/
theorem C1_counterexample :
    lookup_steps Value.null (Value.num 1) ["*"]
        = Except.error (Fail.err Err.exprUnsupported)
      ∧ lookup_steps Value.null (Value.num 1) ["*"] ≠ Except.ok (Value.num 1)
      ∧ JsonPathLookup (Value.obj [("a", Value.num 1)]) "$..a"
        = Except.error (Fail.err Err.exprUnsupported) := by
  refine ⟨rfl, ?_, rfl⟩
  simp [lookup_steps, parse_token]

/-- Claim C1, amended: `parse_token` does classify the standalone `*` token
as the `scan` operation, but `JsonPathLookup`'s switch has no `scan` case:
every path containing a standalone Scan segment falls into the default
branch and the whole lookup fails with "expression don't support in
filter" (for any document, any current value, and any remaining steps), so
`$..field` never reaches `field`. -/
theorem C1_scan_errors :
    parse_token "*" = PTok.mk "scan" "*" Args.none Option.none
      ∧ (∀ (root xobj : Value) (rest : List String),
          lookup_steps root xobj ("*" :: rest)
            = Except.error (Fail.err Err.exprUnsupported)) := by
  exact ⟨rfl, fun _ _ _ => rfl⟩

/-! ### Claim C10 -/

/-- Claim C10: a bracket body containing `?` but not of the exact shape
`?( ... )` parses to op `filter` with a nil `args` payload, and evaluating
such a path on an object that has the preceding key panics on the Go
`args.(string)` type assertion instead of returning an error. -/
theorem C10_filter_nil_args :
    parse_token "a[?x]" = PTok.mk "filter" "a" Args.none Option.none
      ∧ JsonPathLookup (Value.obj [("a", Value.num 1)]) "$.a[?x]"
        = Except.error (Fail.panic "interface conversion: interface is nil, not string") := by
  exact ⟨rfl, rfl⟩

/-! ### Claim C7 -/

/-- Claim C7 (code bug): the tokenizer has no quote handling at all, so a
quoted member name keeps its quote characters in the emitted token (and a
quoted name containing dots is even split at those dots); consequently a
quoted-path lookup searches for a key that includes the quotes and fails.
Only the unterminated-quote half of the claim matches the code.  The
repository's own Test_jsonpath_tokenize expects `$."col"` to tokenize as
["$", "col"] and Test_jsonpath_JsonPathLookup_1 expects
`$."store"."book"[0]."price"` to resolve, so the code contradicts its
tests; the claim describes the intended behaviour. -/
theorem C7_quotes_kept :
    tokenize "$.\"col\"" = Except.ok ["$", "\"col\""]
      ∧ tokenize "$.\"col with spaces\"" = Except.ok ["$", "\"col with spaces\""]
      ∧ tokenize "$.\"col.with.dots\"" = Except.ok ["$", "\"col", "with", "dots\""]
      ∧ tokenize "$.\"unterminated" = Except.ok ["$", "\"unterminated"]
      ∧ JsonPathLookup (Value.obj [("col", Value.num 1)]) "$.\"col\""
        = Except.error (Fail.err (Err.keyNotFound "\"col\"")) := by
  exact ⟨rfl, rfl, rfl, rfl, rfl⟩

/-! ### Claim C3 -/

/-- Claim C3 (code bug): `cmp_any` tests `isNumber` on the `%s` rendering
of the operands, and `%s` of a non-string value is a `%!s(...)` diagnostic,
never a bare number — so a resolved numeric field NEVER takes the
double-precision branch.  The float 8.95 compared with the literal "10"
under `>` yields TRUE (string comparison "8.95" > "10"), where the claim
says false; only when both operands are strings of digits does the numeric
branch run.  The repository's own tests demand the claimed behaviour
(tcase_cmp_any index 8 expects `20 > "100"` to be false, and
Test_jsonpath_num_cmp expects `$.books[?(@.price > 100)].name` to be empty
while the code returns the second book). -/
theorem C3_cmp_any_behavior :
    goFormatS (Value.num 20) = "%!s(float64=20)"
      ∧ isNumber (goFormatS (Value.num 20)) = false
      ∧ cmp_any (Value.num (mkRat 895 100)) (Value.str "10") ">" = Except.ok true
      ∧ cmp_any (Value.num 20) (Value.str "100") ">" = Except.ok true
      ∧ cmp_any (Value.str "20") (Value.str "100") ">" = Except.ok false
      ∧ JsonPathLookup
          (Value.obj [("books", Value.arr
            [Value.obj [("name", Value.str "My First Book"), ("price", Value.num 10)],
             Value.obj [("name", Value.str "My Second Book"), ("price", Value.num 20)]])])
          "$.books[?(@.price > 100)].name"
        = Except.ok (Value.arr [Value.str "My Second Book"]) := by
  exact ⟨rfl, rfl, rfl, rfl, rfl, rfl⟩

/-! ### Claim C2 -/

/-- Claim C2 counterexample: `get_filtered` does NOT drop a per-element
predicate failure.  On a two-element array whose first element satisfies
`@.a < 1` and whose second element makes the predicate evaluation fail
(its field is the empty string: `isNumber ""` is true, so the comparison
takes the numeric branch and `types.Eval` chokes on the malformed constant),
the whole call aborts with the error instead of returning the first
element. -/
theorem C2_counterexample :
    get_filtered
        (Value.arr [Value.obj [("a", Value.str "0")], Value.obj [("a", Value.str "")]])
        Value.null "@.a < 1"
      = Except.error (Fail.err Err.typesEvalFailed)
      ∧ eval_filter (Value.obj [("a", Value.str "0")]) Value.null "@.a" "<" "1"
        = Except.ok true
      ∧ get_filtered
          (Value.arr [Value.obj [("a", Value.str "0")], Value.obj [("a", Value.str "")]])
          Value.null "@.a < 1"
        ≠ Except.ok (Value.arr [Value.obj [("a", Value.str "0")]]) := by
  refine ⟨rfl, rfl, ?_⟩
  intro h
  exact Except.noConfusion h

/-- Claim C2, amended: the two broadcasts differ.  `get_key` over an Array
is best-effort: it always succeeds, collecting exactly the element lookups
that succeed and dropping the failures.  `get_filtered`, by contrast,
aborts on the FIRST element whose `eval_filter` call returns an error (only
operand-resolution failures are absorbed inside `eval_filter` itself; an
error from the comparison aborts the traversal of the collection). -/
theorem C2_broadcast :
    (∀ (key : String) (vs : List Value),
        get_key (Value.arr vs) key
          = Except.ok (Value.arr (vs.filterMap (fun v => (get_key v key).toOption))))
      ∧ get_filtered
          (Value.arr [Value.obj [("a", Value.str "0")], Value.obj [("a", Value.str "")]])
          Value.null "@.a < 1"
        = Except.error (Fail.err Err.typesEvalFailed)
      ∧ eval_filter (Value.obj [("a", Value.str "")]) Value.null "@.a" "<" "1"
        = Except.error (Fail.err Err.typesEvalFailed) := by
  refine ⟨fun key vs => ?_, rfl, rfl⟩
  simp [get_key, get_key_list_eq_filterMap]

/-! ### Claim C6 -/

/-- Claim C6: key access on Null fails with the dedicated
`ErrGetFromNullObj` error, a different error value than the key-not-found
error an Object produces for a missing key; a lookup through a null
intermediate (`$.head_commit.author.username` with `head_commit` null)
surfaces exactly the null-traversal error. -/
theorem C6_null_vs_missing :
    (∀ key : String, get_key Value.null key = Except.error (Fail.err Err.getFromNullObj))
      ∧ (∀ (key : String) (kvs : List (String × Value)),
          (∀ kv ∈ kvs, ¬ kv.1 = key) →
            get_key (Value.obj kvs) key = Except.error (Fail.err (Err.keyNotFound key)))
      ∧ (∀ k : String, Err.getFromNullObj ≠ Err.keyNotFound k)
      ∧ JsonPathLookup (Value.obj [("head_commit", Value.null)])
          "$.head_commit.author.username"
        = Except.error (Fail.err Err.getFromNullObj)
      ∧ JsonPathLookup (Value.obj [("head_commit", Value.null)])
          "$.head_commit.author.username"
        ≠ Except.error (Fail.err (Err.keyNotFound "author")) := by
  refine ⟨fun _ => rfl, fun key kvs hk => ?_, fun _ h => Err.noConfusion h, rfl, ?_⟩
  · have hfind : kvs.find? (fun kv => kv.1 = key) = Option.none := by
      rw [List.find?_eq_none]
      intro x hx
      simpa using hk x hx
    simp [get_key, hfind]
  · intro h
    rw [show JsonPathLookup (Value.obj [("head_commit", Value.null)])
        "$.head_commit.author.username"
        = Except.error (Fail.err Err.getFromNullObj) from rfl] at h
    simp at h

/-- Claim C6 witness: the theorem applied at a concrete missing key. -/
theorem C6_witness :
    get_key (Value.obj [("a", Value.null)]) "b"
      = Except.error (Fail.err (Err.keyNotFound "b")) :=
  C6_null_vs_missing.2.1 "b" [("a", Value.null)] (by simp)

/-! ### Claim C9 -/

/-- Claim C9: the empty path is the only input that tokenizes to an empty
token list without error; `JsonPathLookup` then reads `steps[0]` and
panics, while every non-empty path not starting with `$` or `@` gets the
missing-root-marker error ("should start with '$'") from the tokenizer. -/
theorem C9_empty_path :
    tokenize "" = Except.ok []
      ∧ (∀ q : String, tokenize q = Except.ok [] → q = "")
      ∧ (∀ d : Value,
          JsonPathLookup d "" = Except.error (Fail.panic "runtime error: index out of range"))
      ∧ (∀ (d : Value) (c : Char) (cs : List Char), ¬ c = '$' → ¬ c = '@' →
          JsonPathLookup d (String.mk (c :: cs))
            = Except.error (Fail.err Err.shouldStartWithDollar)) := by
  refine ⟨rfl, ?_, fun d => rfl, ?_⟩
  · intro q h
    obtain ⟨data⟩ := q
    cases data with
    | nil => rfl
    | cons c cs =>
        exfalso
        simp only [tokenize] at h
        split_ifs at h with h1
        · have h2 := tok_finish_ne_nil (tok_loop cs [String.mk [c]] "").1
            (tok_loop cs [String.mk [c]] "").2
            (tok_loop_fst_ne_nil cs [String.mk [c]] "" (by simp))
          simp only [Except.ok.injEq] at h
          exact h2 h
  · intro d c cs h1 h2
    have hcond : ¬(String.mk [c] = "$" ∨ String.mk [c] = "@") := by
      rintro (heq | heq)
      · exact h1 (by simpa using congrArg String.data heq)
      · exact h2 (by simpa using congrArg String.data heq)
    have hq : tokenize (String.mk (c :: cs))
        = Except.error (Fail.err Err.shouldStartWithDollar) := by
      simp only [tokenize]
      rw [if_neg hcond]
    simp [JsonPathLookup, hq]

/-- Claim C9 witness: the uniqueness part applied at the empty string and
the error part applied at the one-character path "x". -/
theorem C9_witness :
    ("" : String) = ""
      ∧ JsonPathLookup Value.null (String.mk ['x'])
        = Except.error (Fail.err Err.shouldStartWithDollar) :=
  ⟨C9_empty_path.2.1 "" rfl,
   C9_empty_path.2.2.2 Value.null 'x' [] (by decide) (by decide)⟩

/-! ### Claim C4 -/

/-- Claim C4 counterexample.  The evaluator loop `lookup_steps` carries two
values: the filter root (first argument — the value `JsonPathLookup` passes
at src/jsonpath.go:86, which is the caller's ORIGINAL `obj`) and the
traversal accumulator (initialised from the deep clone `xobj`).  `$.`-
operands resolve against the former, not the latter: on states where the
two differ, the filter answer follows the first argument, refuting the
claim's reading "the root used is the same clone the traversal walks". -/
theorem C4_counterexample :
    lookup_steps
        (Value.obj [("c", Value.arr [Value.num 1]), ("k", Value.str "b")])
        (Value.obj [("c", Value.arr [Value.num 1]), ("k", Value.str "a")])
        ["c[?($.k == a)]"]
      = Except.ok (Value.arr [])
      ∧ lookup_steps
          (Value.obj [("c", Value.arr [Value.num 1]), ("k", Value.str "a")])
          (Value.obj [("c", Value.arr [Value.num 1]), ("k", Value.str "a")])
          ["c[?($.k == a)]"]
        = Except.ok (Value.arr [Value.num 1])
      ∧ ¬ (∀ (root xobj : Value) (steps : List String),
            lookup_steps root xobj steps = lookup_steps xobj xobj steps) := by
  refine ⟨rfl, rfl, ?_⟩
  intro hall
  have h := hall
    (Value.obj [("c", Value.arr [Value.num 1]), ("k", Value.str "b")])
    (Value.obj [("c", Value.arr [Value.num 1]), ("k", Value.str "a")])
    ["c[?($.k == a)]"]
  rw [show lookup_steps
      (Value.obj [("c", Value.arr [Value.num 1]), ("k", Value.str "b")])
      (Value.obj [("c", Value.arr [Value.num 1]), ("k", Value.str "a")])
      ["c[?($.k == a)]"] = Except.ok (Value.arr []) from rfl,
    show lookup_steps
      (Value.obj [("c", Value.arr [Value.num 1]), ("k", Value.str "a")])
      (Value.obj [("c", Value.arr [Value.num 1]), ("k", Value.str "a")])
      ["c[?($.k == a)]"] = Except.ok (Value.arr [Value.num 1]) from rfl] at h
  simp at h

/-- Claim C4, amended: the root that `JsonPathLookup` retains for
`$.`-rooted filter operands is the caller's ORIGINAL `obj` argument
(src/jsonpath.go:86), not the deep clone `xobj` the traversal walks.
Because the external deep clone is value-equal to the original, the
lookup's observable results nevertheless coincide with the spec-mandated
clone-rooted variant. -/
theorem C4_root_is_original :
    (∀ v : Value, deepcopy v = v)
      ∧ (∀ (obj : Value) (jpath : String),
          JsonPathLookup obj jpath = JsonPathLookupCloneRoot obj jpath) :=
  ⟨fun _ => rfl, fun _ _ => rfl⟩

/-! ### Claim C5 -/

/-- Claim C5 counterexample.  `[:2]` on a length-4 array yields the first
THREE elements, not the first two: the absent `from` resolves to 0 and
`to = 2` resolves to `to + 1 = 3`, so the slice is `[0, 3)`.  Also, a range
whose bounds both pass validation but with resolved `from` above resolved
`to` (here `[3:1]`: resolved 3 and 2) does not return the subsequence —
the Go `reflect.Value.Slice` call panics. -/
theorem C5_counterexample :
    get_range (Value.arr [Value.num 1, Value.num 2, Value.num 3, Value.num 4])
        Option.none (Option.some 2)
      = Except.ok (Value.arr [Value.num 1, Value.num 2, Value.num 3])
      ∧ ¬ get_range (Value.arr [Value.num 1, Value.num 2, Value.num 3, Value.num 4])
          Option.none (Option.some 2)
        = Except.ok (Value.arr [Value.num 1, Value.num 2])
      ∧ get_range (Value.arr [Value.num 1, Value.num 2, Value.num 3, Value.num 4])
          (Option.some 3) (Option.some 1)
        = Except.error (Fail.panic "reflect.Value.Slice: slice index out of range") := by
  refine ⟨rfl, ?_, rfl⟩
  intro h
  rw [show get_range (Value.arr [Value.num 1, Value.num 2, Value.num 3, Value.num 4])
      Option.none (Option.some 2)
      = Except.ok (Value.arr [Value.num 1, Value.num 2, Value.num 3]) from rfl] at h
  simp at h

/-- Claim C5, amended: `get_range` on an Array of length `L` resolves an
absent `to` to `L`, a negative `to` to `L + to + 1` and a non-negative `to`
to `to + 1` (inclusive bound — so `[0:1]` yields 2 elements but `[:2]`
yields the first 3, not 2); it validates `0 <= from < L` first (erroring
with the from-out-of-range error), then `0 <= to <= L` (erroring with the
to-out-of-range error); when both validations pass it returns the
subsequence `[from, to)` provided `from <= to`, and PANICS (Go
`reflect.Value.Slice`) when `from > to`. -/
theorem C5_get_range_resolution :
    ∀ (vs : List Value) (frm tto : Option Int) (rf rt : Int),
      rf = (match frm with
            | Option.some f => if f < 0 then (vs.length : Int) + f else f
            | Option.none => 0) →
      rt = (match tto with
            | Option.some t => if t < 0 then (vs.length : Int) + t + 1 else t + 1
            | Option.none => (vs.length : Int)) →
      ((0 ≤ rf ∧ rf < (vs.length : Int) ∧ 0 ≤ rt ∧ rt ≤ (vs.length : Int) ∧ rf ≤ rt →
          get_range (Value.arr vs) frm tto
            = Except.ok (Value.arr (goSlice vs rf.toNat rt.toNat)))
        ∧ (¬(0 ≤ rf ∧ rf < (vs.length : Int)) →
            get_range (Value.arr vs) frm tto
              = Except.error (Fail.err (Err.rangeFromOut vs.length frm)))
        ∧ (0 ≤ rf ∧ rf < (vs.length : Int) → ¬(0 ≤ rt ∧ rt ≤ (vs.length : Int)) →
            get_range (Value.arr vs) frm tto
              = Except.error (Fail.err (Err.rangeToOut vs.length tto)))
        ∧ (0 ≤ rf ∧ rf < (vs.length : Int) → 0 ≤ rt ∧ rt ≤ (vs.length : Int) → rt < rf →
            get_range (Value.arr vs) frm tto
              = Except.error (Fail.panic "reflect.Value.Slice: slice index out of range"))) := by
  intro vs frm tto rf rt hrf hrt
  subst hrf
  subst hrt
  refine ⟨?_, ?_, ?_, ?_⟩
  · intro h
    simp only [get_range]
    split_ifs <;> first | rfl | omega
  · intro h
    simp only [get_range]
    split_ifs <;> first | rfl | omega
  · intro h1 h2
    simp only [get_range]
    split_ifs <;> first | rfl | omega
  · intro h1 h2 h3
    simp only [get_range]
    split_ifs <;> first | rfl | omega

/-- Claim C5 witness: the theorem applied to `[0:1]` on a length-4 array —
the claim's own example — yielding 2 elements. -/
theorem C5_witness :
    get_range (Value.arr [Value.num 1, Value.num 2, Value.num 3, Value.num 4])
        (Option.some 0) (Option.some 1)
      = Except.ok (Value.arr [Value.num 1, Value.num 2]) := by
  have h := (C5_get_range_resolution
    [Value.num 1, Value.num 2, Value.num 3, Value.num 4]
    (Option.some 0) (Option.some 1) 0 2 rfl rfl).1 (by decide)
  exact h.trans rfl

/-! ### Claim C8 -/

/-- Claim C8 counterexample: a range token whose MALFORMED bound is the
`to` part does not "succeed without reporting an error" — `parse_token`
returns a non-nil `err` (the second `strconv.Atoi` failure survives in the
named return). -/
theorem C8_counterexample :
    (parse_token "book[0:abc]").err = Option.some (Err.atoiFailed "abc")
      ∧ ¬ (parse_token "book[0:abc]").err = Option.none := by
  refine ⟨rfl, ?_⟩
  intro h
  rw [show (parse_token "book[0:abc]").err = Option.some (Err.atoiFailed "abc") from rfl] at h
  exact Option.noConfusion h

/-- Claim C8, amended: a malformed (non-empty, non-integer) range bound is
set to nil in the returned Range payload, and evaluation proceeds with that
bound treated as open either way, because the callers never check
`parse_token`'s error; but `parse_token` itself reports a non-nil `err`
exactly when the `to` bound text fails to parse (the `from` bound's `Atoi`
error is overwritten by the `to` bound's `Atoi` result, so a malformed
`from` with a well-formed `to` — the claim's own `book[abc:2]` example —
does return a nil error). -/
theorem C8_range_malformed :
    (∀ (key tail t1 t2 : String), goSplit tail ':' = [t1, t2] →
        parse_range_branch key tail
          = PTok.mk "range" key
              (Args.range (goAtoi (goTrimSpace t1)) (goAtoi (goTrimSpace t2)))
              (match goAtoi (goTrimSpace t2) with
               | Option.some _ => Option.none
               | Option.none => Option.some (Err.atoiFailed (goTrimSpace t2))))
      ∧ parse_token "book[abc:2]"
        = PTok.mk "range" "book" (Args.range Option.none (Option.some 2)) Option.none
      ∧ JsonPathLookup (Value.obj [("a", Value.arr [Value.num 1, Value.num 2, Value.num 3])])
          "$.a[abc:2]"
        = Except.ok (Value.arr [Value.num 1, Value.num 2, Value.num 3])
      ∧ JsonPathLookup (Value.obj [("a", Value.arr [Value.num 1, Value.num 2, Value.num 3])])
          "$.a[0:abc]"
        = Except.ok (Value.arr [Value.num 1, Value.num 2, Value.num 3]) := by
  refine ⟨?_, rfl, rfl, rfl⟩
  intro key tail t1 t2 h
  unfold parse_range_branch
  rw [h]
  simp

/-- Claim C8 witness: the theorem applied to the claim's own example token
body `abc:2`. -/
theorem C8_witness :
    parse_range_branch "book" "abc:2"
      = PTok.mk "range" "book" (Args.range Option.none (Option.some 2)) Option.none := by
  have h := C8_range_malformed.1 "book" "abc:2" "abc" "2" rfl
  exact h.trans rfl
